import Mathlib

/-!
Shallow embedding of `src/contracts/ReFi_Infra_DAO.sol` (contract
`ReFiInfraDAOFHE`).  Addresses, timestamps, batch ids, request ids and
ciphertext handles are modelled as `Nat`.  Solidity mappings are total
functions whose value at an untouched key is the zero value of the mapped
type, exactly as in the EVM.  An encrypted `euint32` is a pair of a
ciphertext handle (handle `0` is the uninitialized default, real handles
are allocated from a strictly increasing counter, mirroring the
content-addressed handles of the FHE coprocessor: every homomorphic
operation yields a handle never seen before) and the plaintext the
contract never looks at.  `keccak256(abi.encode(cts, address(this)))` is
modelled as an injective constructor applied to the two handles; the
zero `bytes32` (the default of an untouched mapping slot) is a distinct
constructor, reflecting that the hash of a well-formed encoding is never
the all-zero word.  A reverting call is `Except.error e`: the caller's
state is untouched, which models the EVM's atomic rollback.
-/

/-- An `euint32` value: FHE ciphertext handle plus the (opaque) plaintext. -/
structure EncVal where
  handle : Nat
  value : Nat
deriving DecidableEq, Repr

/-- A `bytes32` used as a state hash: either the zero word (mapping default)
or the keccak hash of the abi-encoding of two ciphertext handles together
with the contract address (a fixed constant, hence omitted). -/
inductive HashVal where
  | zeroH : HashVal
  | keccakPair : Nat → Nat → HashVal
deriving DecidableEq, Repr

/-- Mirrors `struct DecryptionContext`. -/
structure DecryptionContext where
  batchId : Nat
  stateHash : HashVal
  processed : Bool
deriving DecidableEq, Repr

/-- The contract's custom errors, plus `InvalidProof` for a revert raised
inside the external `FHE.checkSignatures` verifier. -/
inductive Err where
  | NotOwner
  | NotProvider
  | PausedError
  | CooldownActive
  | BatchNotOpen
  | ReplayDetected
  | StateMismatch
  | InvalidBatchId
  | InvalidProof
deriving DecidableEq, Repr

/-- Full storage of `ReFiInfraDAOFHE`, with two allocator counters for the
external capabilities: `nextHandle` for fresh FHE ciphertext handles
(starts at 1; handle 0 is the uninitialized default) and `nextRequestId`
for the oracle's decryption request ids. -/
structure ContractState where
  owner : Nat
  isProvider : Nat → Bool
  paused : Bool
  cooldownSeconds : Nat
  lastSubmissionTime : Nat → Nat
  lastDecryptionRequestTime : Nat → Nat
  currentBatchId : Nat
  isBatchOpen : Nat → Bool
  totalContributionsEncrypted : Nat → EncVal
  totalUsageEncrypted : Nat → EncVal
  decryptionContexts : Nat → DecryptionContext
  nextHandle : Nat
  nextRequestId : Nat

/-- `FHE.asEuint32`: a trivial encryption allocating a fresh handle. -/
def fheAsEuint32 (s : ContractState) (n : Nat) : EncVal × ContractState :=
  (⟨s.nextHandle, n % 2 ^ 32⟩, { s with nextHandle := s.nextHandle + 1 })

/-- `FHE.add` on `euint32`: homomorphic addition mod `2^32`, allocating a
fresh handle for the result. -/
def fheAdd (s : ContractState) (a b : EncVal) : EncVal × ContractState :=
  (⟨s.nextHandle, (a.value + b.value) % 2 ^ 32⟩, { s with nextHandle := s.nextHandle + 1 })

/-- `FHE.isInitialized`: the handle is not the zero default. -/
def fheIsInitialized (x : EncVal) : Bool :=
  x.handle ≠ 0

/-- `_hashCiphertexts([c, u])`: keccak over the two handles and the contract
address (constant, omitted). -/
def hashCiphertexts (c u : Nat) : HashVal :=
  HashVal.keccakPair c u

/-- The hash `requestBatchSummaryDecryption` would store for batch `b` in
state `s`, and that `myCallback` recomputes. -/
def currentStateHash (s : ContractState) (b : Nat) : HashVal :=
  hashCiphertexts (s.totalContributionsEncrypted b).handle (s.totalUsageEncrypted b).handle

/-- Mirrors `_initIfNeeded(euint32 storage x)`.  The body assigns
`FHE.asEuint32(0)` to the parameter, which rebinds the local reference and
never writes the accumulator mapping back (the defect flagged in the spec),
so the only persistent effect is the handle allocated by `FHE.asEuint32`. -/
def initIfNeeded (s : ContractState) (x : EncVal) : ContractState :=
  if fheIsInitialized x then s else { s with nextHandle := s.nextHandle + 1 }

/-- The `constructor`: deployer becomes owner and provider, batch counter
starts at 1, cooldown defaults to 60 seconds. -/
def initialState (deployer : Nat) : ContractState where
  owner := deployer
  isProvider := Function.update (fun _ => false) deployer true
  paused := false
  cooldownSeconds := 60
  lastSubmissionTime := fun _ => 0
  lastDecryptionRequestTime := fun _ => 0
  currentBatchId := 1
  isBatchOpen := fun _ => false
  totalContributionsEncrypted := fun _ => ⟨0, 0⟩
  totalUsageEncrypted := fun _ => ⟨0, 0⟩
  decryptionContexts := fun _ => ⟨0, HashVal.zeroH, false⟩
  nextHandle := 1
  nextRequestId := 1

/-- `transferOwnership(newOwner)`, `onlyOwner`. -/
def transferOwnership (s : ContractState) (caller newOwner : Nat) :
    Except Err ContractState :=
  if caller ≠ s.owner then .error .NotOwner
  else .ok { s with owner := newOwner }

/-- `addProvider(provider)`, `onlyOwner`; a no-op when already a provider. -/
def addProvider (s : ContractState) (caller provider : Nat) :
    Except Err ContractState :=
  if caller ≠ s.owner then .error .NotOwner
  else if s.isProvider provider then .ok s
  else .ok { s with isProvider := Function.update s.isProvider provider true }

/-- `removeProvider(provider)`, `onlyOwner`; a no-op when not a provider. -/
def removeProvider (s : ContractState) (caller provider : Nat) :
    Except Err ContractState :=
  if caller ≠ s.owner then .error .NotOwner
  else if s.isProvider provider then
    .ok { s with isProvider := Function.update s.isProvider provider false }
  else .ok s

/-- `pause()`, `onlyOwner whenNotPaused`. -/
def pause (s : ContractState) (caller : Nat) : Except Err ContractState :=
  if caller ≠ s.owner then .error .NotOwner
  else if s.paused then .error .PausedError
  else .ok { s with paused := true }

/-- `unpause()`, `onlyOwner`; reverts `PausedError` when not paused. -/
def unpause (s : ContractState) (caller : Nat) : Except Err ContractState :=
  if caller ≠ s.owner then .error .NotOwner
  else if ¬ s.paused then .error .PausedError
  else .ok { s with paused := false }

/-- `setCooldownSeconds(n)`, `onlyOwner`. -/
def setCooldownSeconds (s : ContractState) (caller n : Nat) :
    Except Err ContractState :=
  if caller ≠ s.owner then .error .NotOwner
  else .ok { s with cooldownSeconds := n }

/-- `openBatch()`, `onlyOwner whenNotPaused`: increments the counter, opens
the new id and initializes both accumulators to fresh encryptions of 0. -/
def openBatch (s : ContractState) (caller : Nat) : Except Err ContractState :=
  if caller ≠ s.owner then .error .NotOwner
  else if s.paused then .error .PausedError
  else
    let newId := s.currentBatchId + 1
    let (z1, s1) := fheAsEuint32 s 0
    let (z2, s2) := fheAsEuint32 s1 0
    .ok { s2 with
      currentBatchId := newId
      isBatchOpen := Function.update s.isBatchOpen newId true
      totalContributionsEncrypted := Function.update s.totalContributionsEncrypted newId z1
      totalUsageEncrypted := Function.update s.totalUsageEncrypted newId z2 }

/-- `closeBatch(batchId)`, `onlyOwner whenNotPaused`. -/
def closeBatch (s : ContractState) (caller batchId : Nat) :
    Except Err ContractState :=
  if caller ≠ s.owner then .error .NotOwner
  else if s.paused then .error .PausedError
  else if ¬ s.isBatchOpen batchId then .error .BatchNotOpen
  else .ok { s with isBatchOpen := Function.update s.isBatchOpen batchId false }

/-- `submitContribution(batchId, encryptedAmount)`, `whenNotPaused`;
`now` is `block.timestamp` and `caller` is `msg.sender`. -/
def submitContribution (s : ContractState) (caller now batchId : Nat)
    (encryptedAmount : EncVal) : Except Err ContractState :=
  if s.paused then .error .PausedError
  else if now < s.lastSubmissionTime caller + s.cooldownSeconds then
    .error .CooldownActive
  else if ¬ s.isBatchOpen batchId then .error .BatchNotOpen
  else
    let s1 := initIfNeeded s (s.totalContributionsEncrypted batchId)
    let (sum, s2) := fheAdd s1 (s1.totalContributionsEncrypted batchId) encryptedAmount
    .ok { s2 with
      totalContributionsEncrypted := Function.update s2.totalContributionsEncrypted batchId sum
      lastSubmissionTime := Function.update s2.lastSubmissionTime caller now }

/-- `reportUsage(batchId, encryptedUsage)`, `onlyProvider whenNotPaused`;
shares the submission cooldown timestamp with `submitContribution`. -/
def reportUsage (s : ContractState) (caller now batchId : Nat)
    (encryptedUsage : EncVal) : Except Err ContractState :=
  if ¬ s.isProvider caller then .error .NotProvider
  else if s.paused then .error .PausedError
  else if now < s.lastSubmissionTime caller + s.cooldownSeconds then
    .error .CooldownActive
  else if ¬ s.isBatchOpen batchId then .error .BatchNotOpen
  else
    let s1 := initIfNeeded s (s.totalUsageEncrypted batchId)
    let (sum, s2) := fheAdd s1 (s1.totalUsageEncrypted batchId) encryptedUsage
    .ok { s2 with
      totalUsageEncrypted := Function.update s2.totalUsageEncrypted batchId sum
      lastSubmissionTime := Function.update s2.lastSubmissionTime caller now }

/-- `requestBatchSummaryDecryption(batchId)`, `whenNotPaused`: cooldown
check first, then the batch must be closed, both accumulators initialized;
stores a `DecryptionContext` under the oracle-allocated request id. -/
def requestBatchSummaryDecryption (s : ContractState) (caller now batchId : Nat) :
    Except Err ContractState :=
  if s.paused then .error .PausedError
  else if now < s.lastDecryptionRequestTime caller + s.cooldownSeconds then
    .error .CooldownActive
  else if s.isBatchOpen batchId then .error .BatchNotOpen
  else
    let contributions := s.totalContributionsEncrypted batchId
    let usage := s.totalUsageEncrypted batchId
    if ¬ fheIsInitialized contributions ∨ ¬ fheIsInitialized usage then
      .error .InvalidBatchId
    else
      let stateHash := hashCiphertexts contributions.handle usage.handle
      let requestId := s.nextRequestId
      .ok { s with
        nextRequestId := s.nextRequestId + 1
        decryptionContexts :=
          Function.update s.decryptionContexts requestId ⟨batchId, stateHash, false⟩
        lastDecryptionRequestTime := Function.update s.lastDecryptionRequestTime caller now }

/-- `myCallback(requestId, cleartexts, proof)`.  `checkSig` models the
external `FHE.checkSignatures` verifier (reverting is returning `false`);
`cleartexts` is the pair of decoded 32-byte words and `proof` an opaque
blob.  `caller` is `msg.sender`: the source body never reads it — the
function has no modifier and no caller check. -/
def myCallback (checkSig : Nat → Nat × Nat → Nat → Bool)
    (s : ContractState) (caller requestId : Nat) (cleartexts : Nat × Nat)
    (proof : Nat) : Except Err ContractState :=
  if (s.decryptionContexts requestId).processed then .error .ReplayDetected
  else
    let batchId := (s.decryptionContexts requestId).batchId
    let contributions := s.totalContributionsEncrypted batchId
    let usage := s.totalUsageEncrypted batchId
    let currentHash := hashCiphertexts contributions.handle usage.handle
    if currentHash ≠ (s.decryptionContexts requestId).stateHash then
      .error .StateMismatch
    else if ¬ checkSig requestId cleartexts proof then .error .InvalidProof
    else
      .ok { s with
        decryptionContexts := Function.update s.decryptionContexts requestId
          ⟨batchId, (s.decryptionContexts requestId).stateHash, true⟩ }

/-- `true` exactly on non-reverting results. -/
def execOk (r : Except Err ContractState) : Bool :=
  match r with
  | .ok _ => true
  | .error _ => false

/-- One serialized transaction against the contract: any public mutating
entry point, any caller, any timestamp, any argument, any verifier. -/
inductive Step : ContractState → ContractState → Prop where
  | transferOwnership (s s' : ContractState) (c n : Nat) :
      transferOwnership s c n = .ok s' → Step s s'
  | addProvider (s s' : ContractState) (c p : Nat) :
      addProvider s c p = .ok s' → Step s s'
  | removeProvider (s s' : ContractState) (c p : Nat) :
      removeProvider s c p = .ok s' → Step s s'
  | pause (s s' : ContractState) (c : Nat) :
      pause s c = .ok s' → Step s s'
  | unpause (s s' : ContractState) (c : Nat) :
      unpause s c = .ok s' → Step s s'
  | setCooldownSeconds (s s' : ContractState) (c n : Nat) :
      setCooldownSeconds s c n = .ok s' → Step s s'
  | openBatch (s s' : ContractState) (c : Nat) :
      openBatch s c = .ok s' → Step s s'
  | closeBatch (s s' : ContractState) (c b : Nat) :
      closeBatch s c b = .ok s' → Step s s'
  | submitContribution (s s' : ContractState) (c now b : Nat) (v : EncVal) :
      submitContribution s c now b v = .ok s' → Step s s'
  | reportUsage (s s' : ContractState) (c now b : Nat) (v : EncVal) :
      reportUsage s c now b v = .ok s' → Step s s'
  | requestBatchSummaryDecryption (s s' : ContractState) (c now b : Nat) :
      requestBatchSummaryDecryption s c now b = .ok s' → Step s s'
  | myCallback (s s' : ContractState) (sig : Nat → Nat × Nat → Nat → Bool)
      (c rid : Nat) (ct : Nat × Nat) (pf : Nat) :
      myCallback sig s c rid ct pf = .ok s' → Step s s'

/-- Reflexive-transitive closure of `Step`: any reachable continuation. -/
def Reachable : ContractState → ContractState → Prop :=
  Relation.ReflTransGen Step

/-- A signature verifier that accepts everything (a valid proof). -/
def sigTrue : Nat → Nat × Nat → Nat → Bool :=
  fun _ _ _ => true

/-- State after `openBatch()` called by the deployer on a fresh deployment:
batch 2 is open, both of its accumulators hold fresh encryptions of 0. -/
def demoState : ContractState := { initialState 0 with
  currentBatchId := 2
  isBatchOpen := Function.update (fun _ => false) 2 true
  totalContributionsEncrypted := Function.update (fun _ => ⟨0, 0⟩) 2 ⟨1, 0⟩
  totalUsageEncrypted := Function.update (fun _ => ⟨0, 0⟩) 2 ⟨2, 0⟩
  nextHandle := 3 }

/-- `demoState` after `closeBatch(2)` by the owner. -/
def closedState : ContractState := { demoState with
  isBatchOpen := Function.update demoState.isBatchOpen 2 false }

/-- `closedState` after `requestBatchSummaryDecryption(2)` by principal 4 at
time 100: request id 1 carries context `(2, keccak(1, 2), false)`. -/
def readyState : ContractState := { closedState with
  nextRequestId := 2
  decryptionContexts := Function.update closedState.decryptionContexts 1
    ⟨2, HashVal.keccakPair 1 2, false⟩
  lastDecryptionRequestTime := Function.update closedState.lastDecryptionRequestTime 4 100 }

/-- Every open batch id is bounded by the allocation counter.  This is the
reachability invariant behind "a closed batch never reopens": `openBatch`
only ever opens `currentBatchId + 1`. -/
def BatchIdsBounded (s : ContractState) : Prop :=
  ∀ b, s.isBatchOpen b = true → b ≤ s.currentBatchId

/-- The post-state of the C10 witness: ownership moved to principal 5. -/
def ownState : ContractState := { initialState 0 with owner := 5 }

/-- `demoState` with a decryption context for batch 2 registered under
request id 1 while the batch is still open: the stored hash matches the
current handles (1 and 2). -/
def c1State : ContractState := { demoState with
  decryptionContexts := Function.update demoState.decryptionContexts 1
    ⟨2, HashVal.keccakPair 1 2, false⟩ }

/-- `c1State` after principal 7 merged a contribution into batch 2 at time
100: the contributions accumulator now holds the fresh handle 3. -/
def c1Merged : ContractState := { c1State with
  totalContributionsEncrypted :=
    Function.update c1State.totalContributionsEncrypted 2 ⟨3, 1⟩
  lastSubmissionTime := Function.update c1State.lastSubmissionTime 7 100
  nextHandle := 4 }

/-- `readyState` after the oracle callback for request 1 succeeded: the
context is marked processed. -/
def processedState : ContractState := { readyState with
  decryptionContexts := Function.update readyState.decryptionContexts 1
    ⟨2, HashVal.keccakPair 1 2, true⟩ }

/-- `demoState` where caller 4 made a decryption request at time 100 (so at
time 110 their cooldown of 60 seconds has not elapsed). -/
def cooldownBusyState : ContractState := { demoState with
  lastDecryptionRequestTime :=
    Function.update demoState.lastDecryptionRequestTime 4 100 }

/-- `readyState` with the pause switch on. -/
def pausedReadyState : ContractState := { readyState with paused := true }

/-- `demoState` (batch 2 open, all cooldowns clear) with the pause switch
on. -/
def pausedOpenState : ContractState := { demoState with paused := true }

theorem openBatch_demo : openBatch (initialState 0) 0 = .ok demoState := rfl

theorem closeBatch_demo : closeBatch demoState 0 2 = .ok closedState := rfl

theorem request_demo :
    requestBatchSummaryDecryption closedState 4 100 2 = .ok readyState := rfl

theorem transferOwnership_ok {s s' : ContractState} {c n : Nat}
    (h : transferOwnership s c n = .ok s') :
    c = s.owner ∧ s' = { s with owner := n } := by
  unfold transferOwnership at h
  split at h
  · exact absurd h (by simp)
  · rename_i hc
    simp only [Except.ok.injEq] at h
    exact ⟨not_not.mp hc, h.symm⟩

theorem addProvider_ok {s s' : ContractState} {c p : Nat}
    (h : addProvider s c p = .ok s') :
    c = s.owner ∧
      (s' = s ∨ s' = { s with isProvider := Function.update s.isProvider p true }) := by
  unfold addProvider at h
  split at h
  · exact absurd h (by simp)
  · rename_i hc
    split at h <;> simp only [Except.ok.injEq] at h
    · exact ⟨not_not.mp hc, Or.inl h.symm⟩
    · exact ⟨not_not.mp hc, Or.inr h.symm⟩

theorem removeProvider_ok {s s' : ContractState} {c p : Nat}
    (h : removeProvider s c p = .ok s') :
    c = s.owner ∧
      (s' = s ∨ s' = { s with isProvider := Function.update s.isProvider p false }) := by
  unfold removeProvider at h
  split at h
  · exact absurd h (by simp)
  · rename_i hc
    split at h <;> simp only [Except.ok.injEq] at h
    · exact ⟨not_not.mp hc, Or.inr h.symm⟩
    · exact ⟨not_not.mp hc, Or.inl h.symm⟩

theorem pause_ok {s s' : ContractState} {c : Nat} (h : pause s c = .ok s') :
    c = s.owner ∧ s.paused = false ∧ s' = { s with paused := true } := by
  unfold pause at h
  split at h
  · exact absurd h (by simp)
  · rename_i hc
    split at h
    · exact absurd h (by simp)
    · rename_i hp
      simp only [Except.ok.injEq] at h
      exact ⟨not_not.mp hc, by simpa using hp, h.symm⟩

theorem unpause_ok {s s' : ContractState} {c : Nat} (h : unpause s c = .ok s') :
    c = s.owner ∧ s.paused = true ∧ s' = { s with paused := false } := by
  unfold unpause at h
  split at h
  · exact absurd h (by simp)
  · rename_i hc
    split at h
    · exact absurd h (by simp)
    · rename_i hp
      simp only [Except.ok.injEq] at h
      exact ⟨not_not.mp hc, by simpa using hp, h.symm⟩

theorem setCooldownSeconds_ok {s s' : ContractState} {c n : Nat}
    (h : setCooldownSeconds s c n = .ok s') :
    c = s.owner ∧ s' = { s with cooldownSeconds := n } := by
  unfold setCooldownSeconds at h
  split at h
  · exact absurd h (by simp)
  · rename_i hc
    simp only [Except.ok.injEq] at h
    exact ⟨not_not.mp hc, h.symm⟩

theorem openBatch_ok {s s' : ContractState} {c : Nat}
    (h : openBatch s c = .ok s') :
    c = s.owner ∧ s.paused = false ∧
      s' = { s with
        currentBatchId := s.currentBatchId + 1
        isBatchOpen := Function.update s.isBatchOpen (s.currentBatchId + 1) true
        totalContributionsEncrypted :=
          Function.update s.totalContributionsEncrypted (s.currentBatchId + 1)
            ⟨s.nextHandle, 0⟩
        totalUsageEncrypted :=
          Function.update s.totalUsageEncrypted (s.currentBatchId + 1)
            ⟨s.nextHandle + 1, 0⟩
        nextHandle := s.nextHandle + 2 } := by
  unfold openBatch at h
  split at h
  · exact absurd h (by simp)
  · rename_i hc
    split at h
    · exact absurd h (by simp)
    · rename_i hp
      simp only [fheAsEuint32, Except.ok.injEq] at h
      refine ⟨not_not.mp hc, by simpa using hp, ?_⟩
      rw [← h]
      rfl

theorem closeBatch_ok {s s' : ContractState} {c b : Nat}
    (h : closeBatch s c b = .ok s') :
    c = s.owner ∧ s.paused = false ∧ s.isBatchOpen b = true ∧
      s' = { s with isBatchOpen := Function.update s.isBatchOpen b false } := by
  unfold closeBatch at h
  split at h
  · exact absurd h (by simp)
  · rename_i hc
    split at h
    · exact absurd h (by simp)
    · rename_i hp
      split at h
      · exact absurd h (by simp)
      · rename_i hb
        simp only [Except.ok.injEq] at h
        exact ⟨not_not.mp hc, by simpa using hp, by simpa using hb, h.symm⟩

theorem execOk_iff {r : Except Err ContractState} :
    execOk r = true ↔ ∃ s', r = .ok s' := by
  cases r <;> simp [execOk]

theorem submitContribution_ok {s s' : ContractState} {c now b : Nat} {v : EncVal}
    (h : submitContribution s c now b v = .ok s') :
    s.paused = false ∧ s.lastSubmissionTime c + s.cooldownSeconds ≤ now ∧
    s.isBatchOpen b = true ∧
    ∃ hnd pv, s.nextHandle ≤ hnd ∧
      s' = { s with
        totalContributionsEncrypted :=
          Function.update s.totalContributionsEncrypted b ⟨hnd, pv⟩
        lastSubmissionTime := Function.update s.lastSubmissionTime c now
        nextHandle := hnd + 1 } := by
  unfold submitContribution at h
  split at h
  · exact absurd h (by simp)
  · rename_i hp
    split at h
    · exact absurd h (by simp)
    · rename_i hcd
      split at h
      · exact absurd h (by simp)
      · rename_i hb
        refine ⟨by simpa using hp, Nat.le_of_not_lt hcd, by simpa using hb, ?_⟩
        simp only [initIfNeeded, fheAdd] at h
        split at h
        · simp only [Except.ok.injEq] at h
          exact ⟨s.nextHandle, _, le_refl _, h.symm⟩
        · simp only [Except.ok.injEq] at h
          exact ⟨s.nextHandle + 1, _, by omega, h.symm⟩

theorem reportUsage_ok {s s' : ContractState} {c now b : Nat} {v : EncVal}
    (h : reportUsage s c now b v = .ok s') :
    s.isProvider c = true ∧
    s.paused = false ∧ s.lastSubmissionTime c + s.cooldownSeconds ≤ now ∧
    s.isBatchOpen b = true ∧
    ∃ hnd pv, s.nextHandle ≤ hnd ∧
      s' = { s with
        totalUsageEncrypted :=
          Function.update s.totalUsageEncrypted b ⟨hnd, pv⟩
        lastSubmissionTime := Function.update s.lastSubmissionTime c now
        nextHandle := hnd + 1 } := by
  unfold reportUsage at h
  split at h
  · exact absurd h (by simp)
  · rename_i hpr
    split at h
    · exact absurd h (by simp)
    · rename_i hp
      split at h
      · exact absurd h (by simp)
      · rename_i hcd
        split at h
        · exact absurd h (by simp)
        · rename_i hb
          refine ⟨by simpa using hpr, by simpa using hp, Nat.le_of_not_lt hcd,
            by simpa using hb, ?_⟩
          simp only [initIfNeeded, fheAdd] at h
          split at h
          · simp only [Except.ok.injEq] at h
            exact ⟨s.nextHandle, _, le_refl _, h.symm⟩
          · simp only [Except.ok.injEq] at h
            exact ⟨s.nextHandle + 1, _, by omega, h.symm⟩

theorem requestSummary_ok {s s' : ContractState} {c now b : Nat}
    (h : requestBatchSummaryDecryption s c now b = .ok s') :
    s.paused = false ∧ s.lastDecryptionRequestTime c + s.cooldownSeconds ≤ now ∧
    s.isBatchOpen b = false ∧
    (s.totalContributionsEncrypted b).handle ≠ 0 ∧
    (s.totalUsageEncrypted b).handle ≠ 0 ∧
    s' = { s with
      nextRequestId := s.nextRequestId + 1
      decryptionContexts := Function.update s.decryptionContexts s.nextRequestId
        ⟨b, currentStateHash s b, false⟩
      lastDecryptionRequestTime :=
        Function.update s.lastDecryptionRequestTime c now } := by
  unfold requestBatchSummaryDecryption at h
  split at h
  · exact absurd h (by simp)
  · rename_i hp
    split at h
    · exact absurd h (by simp)
    · rename_i hcd
      split at h
      · exact absurd h (by simp)
      · rename_i hb
        simp only [fheIsInitialized] at h
        split at h
        · exact absurd h (by simp)
        · rename_i hinit
          push_neg at hinit
          simp only [Except.ok.injEq] at h
          refine ⟨by simpa using hp, Nat.le_of_not_lt hcd, by simpa using hb,
            ?_, ?_, h.symm⟩
          · have := hinit.1
            simpa using this
          · have := hinit.2
            simpa using this

theorem myCallback_ok {sig : Nat → Nat × Nat → Nat → Bool} {s s' : ContractState}
    {c rid : Nat} {ct : Nat × Nat} {pf : Nat}
    (h : myCallback sig s c rid ct pf = .ok s') :
    (s.decryptionContexts rid).processed = false ∧
    currentStateHash s (s.decryptionContexts rid).batchId =
      (s.decryptionContexts rid).stateHash ∧
    sig rid ct pf = true ∧
    s' = { s with decryptionContexts :=
      (Function.update s.decryptionContexts rid
        ⟨(s.decryptionContexts rid).batchId, (s.decryptionContexts rid).stateHash,
          true⟩) } := by
  simp only [myCallback] at h
  split at h
  · exact absurd h (by simp)
  · rename_i hpr
    split at h
    · exact absurd h (by simp)
    · rename_i hhash
      split at h
      · exact absurd h (by simp)
      · rename_i hsig
        simp only [Except.ok.injEq] at h
        refine ⟨by simpa using hpr, ?_, by simpa using hsig, h.symm⟩
        have := not_not.mp hhash
        simpa [currentStateHash, hashCiphertexts] using this

theorem initialState_bounded (d : Nat) : BatchIdsBounded (initialState d) := by
  intro b hb
  simp [initialState] at hb

theorem step_counter_mono {s s' : ContractState} (h : Step s s') :
    s.currentBatchId ≤ s'.currentBatchId := by
  cases h with
  | transferOwnership c n h =>
      obtain ⟨-, h2⟩ := transferOwnership_ok h
      subst h2; exact le_refl _
  | addProvider c p h =>
      rcases addProvider_ok h with ⟨-, h2 | h2⟩ <;> subst h2 <;> exact le_refl _
  | removeProvider c p h =>
      rcases removeProvider_ok h with ⟨-, h2 | h2⟩ <;> subst h2 <;> exact le_refl _
  | pause c h =>
      obtain ⟨-, -, h2⟩ := pause_ok h
      subst h2; exact le_refl _
  | unpause c h =>
      obtain ⟨-, -, h2⟩ := unpause_ok h
      subst h2; exact le_refl _
  | setCooldownSeconds c n h =>
      obtain ⟨-, h2⟩ := setCooldownSeconds_ok h
      subst h2; exact le_refl _
  | openBatch c h =>
      obtain ⟨-, -, h2⟩ := openBatch_ok h
      subst h2; exact Nat.le_succ _
  | closeBatch c b h =>
      obtain ⟨-, -, -, h2⟩ := closeBatch_ok h
      subst h2; exact le_refl _
  | submitContribution c now b v h =>
      obtain ⟨-, -, -, hnd, pv, -, h2⟩ := submitContribution_ok h
      subst h2; exact le_refl _
  | reportUsage c now b v h =>
      obtain ⟨-, -, -, -, hnd, pv, -, h2⟩ := reportUsage_ok h
      subst h2; exact le_refl _
  | requestBatchSummaryDecryption c now b h =>
      obtain ⟨-, -, -, -, -, h2⟩ := requestSummary_ok h
      subst h2; exact le_refl _
  | myCallback sig c rid ct pf h =>
      obtain ⟨-, -, -, h2⟩ := myCallback_ok h
      subst h2; exact le_refl _

theorem step_preserves_bounded {s s' : ContractState} (h : Step s s')
    (hb : BatchIdsBounded s) : BatchIdsBounded s' := by
  cases h with
  | openBatch c h =>
      obtain ⟨-, -, h2⟩ := openBatch_ok h
      subst h2
      intro b hob
      have hob' : Function.update s.isBatchOpen (s.currentBatchId + 1) true b = true := hob
      show b ≤ s.currentBatchId + 1
      rcases eq_or_ne b (s.currentBatchId + 1) with rfl | hne
      · exact le_refl _
      · rw [Function.update_noteq hne] at hob'
        exact Nat.le_succ_of_le (hb b hob')
  | closeBatch c bid h =>
      obtain ⟨-, -, -, h2⟩ := closeBatch_ok h
      subst h2
      intro b hob
      have hob' : Function.update s.isBatchOpen bid false b = true := hob
      show b ≤ s.currentBatchId
      rcases eq_or_ne b bid with rfl | hne
      · rw [Function.update_same] at hob'
        exact absurd hob' (by simp)
      · rw [Function.update_noteq hne] at hob'
        exact hb b hob'
  | transferOwnership c n h =>
      obtain ⟨-, h2⟩ := transferOwnership_ok h
      subst h2; exact fun b hob => hb b hob
  | addProvider c p h =>
      rcases addProvider_ok h with ⟨-, h2 | h2⟩ <;> subst h2 <;>
        exact fun b hob => hb b hob
  | removeProvider c p h =>
      rcases removeProvider_ok h with ⟨-, h2 | h2⟩ <;> subst h2 <;>
        exact fun b hob => hb b hob
  | pause c h =>
      obtain ⟨-, -, h2⟩ := pause_ok h
      subst h2; exact fun b hob => hb b hob
  | unpause c h =>
      obtain ⟨-, -, h2⟩ := unpause_ok h
      subst h2; exact fun b hob => hb b hob
  | setCooldownSeconds c n h =>
      obtain ⟨-, h2⟩ := setCooldownSeconds_ok h
      subst h2; exact fun b hob => hb b hob
  | submitContribution c now b v h =>
      obtain ⟨-, -, -, hnd, pv, -, h2⟩ := submitContribution_ok h
      subst h2; exact fun b hob => hb b hob
  | reportUsage c now b v h =>
      obtain ⟨-, -, -, -, hnd, pv, -, h2⟩ := reportUsage_ok h
      subst h2; exact fun b hob => hb b hob
  | requestBatchSummaryDecryption c now b h =>
      obtain ⟨-, -, -, -, -, h2⟩ := requestSummary_ok h
      subst h2; exact fun b hob => hb b hob
  | myCallback sig c rid ct pf h =>
      obtain ⟨-, -, -, h2⟩ := myCallback_ok h
      subst h2; exact fun b hob => hb b hob

theorem step_preserves_closed {s s' : ContractState} (b : Nat) (h : Step s s')
    (hbound : b ≤ s.currentBatchId) (hcl : s.isBatchOpen b = false) :
    b ≤ s'.currentBatchId ∧ s'.isBatchOpen b = false ∧
    s'.totalContributionsEncrypted b = s.totalContributionsEncrypted b ∧
    s'.totalUsageEncrypted b = s.totalUsageEncrypted b := by
  cases h with
  | transferOwnership c n h =>
      obtain ⟨-, h2⟩ := transferOwnership_ok h
      subst h2; exact ⟨hbound, hcl, rfl, rfl⟩
  | addProvider c p h =>
      rcases addProvider_ok h with ⟨-, h2 | h2⟩ <;> subst h2 <;>
        exact ⟨hbound, hcl, rfl, rfl⟩
  | removeProvider c p h =>
      rcases removeProvider_ok h with ⟨-, h2 | h2⟩ <;> subst h2 <;>
        exact ⟨hbound, hcl, rfl, rfl⟩
  | pause c h =>
      obtain ⟨-, -, h2⟩ := pause_ok h
      subst h2; exact ⟨hbound, hcl, rfl, rfl⟩
  | unpause c h =>
      obtain ⟨-, -, h2⟩ := unpause_ok h
      subst h2; exact ⟨hbound, hcl, rfl, rfl⟩
  | setCooldownSeconds c n h =>
      obtain ⟨-, h2⟩ := setCooldownSeconds_ok h
      subst h2; exact ⟨hbound, hcl, rfl, rfl⟩
  | openBatch c h =>
      obtain ⟨-, -, h2⟩ := openBatch_ok h
      subst h2
      have hne : b ≠ s.currentBatchId + 1 := by omega
      refine ⟨?_, ?_, ?_, ?_⟩
      · show b ≤ s.currentBatchId + 1
        omega
      · show Function.update s.isBatchOpen (s.currentBatchId + 1) true b = false
        rw [Function.update_noteq hne]; exact hcl
      · show Function.update s.totalContributionsEncrypted (s.currentBatchId + 1)
          ⟨s.nextHandle, 0⟩ b = s.totalContributionsEncrypted b
        rw [Function.update_noteq hne]
      · show Function.update s.totalUsageEncrypted (s.currentBatchId + 1)
          ⟨s.nextHandle + 1, 0⟩ b = s.totalUsageEncrypted b
        rw [Function.update_noteq hne]
  | closeBatch c bid h =>
      obtain ⟨-, -, hop, h2⟩ := closeBatch_ok h
      subst h2
      refine ⟨hbound, ?_, rfl, rfl⟩
      show Function.update s.isBatchOpen bid false b = false
      rcases eq_or_ne b bid with rfl | hne
      · rw [Function.update_same]
      · rw [Function.update_noteq hne]; exact hcl
  | submitContribution c now bid v h =>
      obtain ⟨-, -, hop, hnd, pv, -, h2⟩ := submitContribution_ok h
      subst h2
      have hne : b ≠ bid := by
        intro he; rw [he, hop] at hcl; exact Bool.noConfusion hcl
      refine ⟨hbound, hcl, ?_, rfl⟩
      show Function.update s.totalContributionsEncrypted bid ⟨hnd, pv⟩ b =
        s.totalContributionsEncrypted b
      rw [Function.update_noteq hne]
  | reportUsage c now bid v h =>
      obtain ⟨-, -, -, hop, hnd, pv, -, h2⟩ := reportUsage_ok h
      subst h2
      have hne : b ≠ bid := by
        intro he; rw [he, hop] at hcl; exact Bool.noConfusion hcl
      refine ⟨hbound, hcl, rfl, ?_⟩
      show Function.update s.totalUsageEncrypted bid ⟨hnd, pv⟩ b =
        s.totalUsageEncrypted b
      rw [Function.update_noteq hne]
  | requestBatchSummaryDecryption c now bid h =>
      obtain ⟨-, -, -, -, -, h2⟩ := requestSummary_ok h
      subst h2; exact ⟨hbound, hcl, rfl, rfl⟩
  | myCallback sig c rid ct pf h =>
      obtain ⟨-, -, -, h2⟩ := myCallback_ok h
      subst h2; exact ⟨hbound, hcl, rfl, rfl⟩

theorem reachable_preserves_closed {s s₂ : ContractState} (b : Nat)
    (h : Reachable s s₂) (hbound : b ≤ s.currentBatchId)
    (hcl : s.isBatchOpen b = false) :
    b ≤ s₂.currentBatchId ∧ s₂.isBatchOpen b = false ∧
    s₂.totalContributionsEncrypted b = s.totalContributionsEncrypted b ∧
    s₂.totalUsageEncrypted b = s.totalUsageEncrypted b := by
  induction h with
  | refl => exact ⟨hbound, hcl, rfl, rfl⟩
  | tail hst hstep ih =>
      obtain ⟨ih1, ih2, ih3, ih4⟩ := ih
      obtain ⟨j1, j2, j3, j4⟩ := step_preserves_closed b hstep ih1 ih2
      exact ⟨j1, j2, j3.trans ih3, j4.trans ih4⟩

theorem submit_fails_on_closed {s : ContractState} {c now b : Nat} {v : EncVal}
    (hcl : s.isBatchOpen b = false) :
    execOk (submitContribution s c now b v) = false := by
  cases he : submitContribution s c now b v with
  | error e => rfl
  | ok s' =>
      obtain ⟨-, -, hop, -⟩ := submitContribution_ok he
      rw [hop] at hcl; exact Bool.noConfusion hcl

theorem report_fails_on_closed {s : ContractState} {c now b : Nat} {v : EncVal}
    (hcl : s.isBatchOpen b = false) :
    execOk (reportUsage s c now b v) = false := by
  cases he : reportUsage s c now b v with
  | error e => rfl
  | ok s' =>
      obtain ⟨-, -, -, hop, -⟩ := reportUsage_ok he
      rw [hop] at hcl; exact Bool.noConfusion hcl

theorem demoState_bounded : BatchIdsBounded demoState := by
  intro b hb
  rcases eq_or_ne b 2 with rfl | hne
  · exact le_refl 2
  · exfalso
    have hb' : Function.update (fun _ => false) 2 true b = true := hb
    rw [Function.update_noteq hne] at hb'
    exact Bool.noConfusion hb'

/-- C10: `transferOwnership(newOwner)`, called by the owner, changes only the
`owner` field: every other storage slot, in particular the provider set, is
unchanged, so the previous owner (granted the provider role in the
constructor at deployment) remains a provider and `newOwner` does not
automatically gain the provider role; the final conjunct records the
constructor grant itself. -/
theorem transferOwnership_only_changes_owner
    (s s' : ContractState) (caller newOwner : Nat)
    (hcall : caller = s.owner)
    (h : transferOwnership s caller newOwner = .ok s') :
    s'.owner = newOwner ∧
    s'.isProvider = s.isProvider ∧
    (s.isProvider s.owner = true → s'.isProvider s.owner = true) ∧
    s'.isProvider newOwner = s.isProvider newOwner ∧
    s'.paused = s.paused ∧
    s'.cooldownSeconds = s.cooldownSeconds ∧
    s'.lastSubmissionTime = s.lastSubmissionTime ∧
    s'.lastDecryptionRequestTime = s.lastDecryptionRequestTime ∧
    s'.currentBatchId = s.currentBatchId ∧
    s'.isBatchOpen = s.isBatchOpen ∧
    s'.totalContributionsEncrypted = s.totalContributionsEncrypted ∧
    s'.totalUsageEncrypted = s.totalUsageEncrypted ∧
    s'.decryptionContexts = s.decryptionContexts ∧
    (∀ d, (initialState d).isProvider d = true) := by
  obtain ⟨-, h2⟩ := transferOwnership_ok h
  subst h2
  refine ⟨rfl, rfl, fun hp => hp, rfl, rfl, rfl, rfl, rfl, rfl, rfl, rfl, rfl,
    rfl, ?_⟩
  intro d
  show Function.update (fun _ => false) d true d = true
  rw [Function.update_same]

theorem transferOwnership_only_changes_owner_witness :
    ownState.owner = 5 ∧ ownState.isProvider 0 = true := by
  obtain ⟨h1, -, h3, -⟩ :=
    transferOwnership_only_changes_owner (initialState 0) ownState 0 5 rfl rfl
  exact ⟨h1, h3 (by decide)⟩

/-- C8: a successful `openBatch()` sets the counter to its successor and
opens exactly that id (consecutive allocation, no gaps, no reuse); no
transaction, pause and unpause included, ever decreases the counter, so an
allocation after any reachable continuation strictly exceeds every earlier
counter value and hence every earlier allocated id; the constructor starts
the counter at 1, so the first `openBatch()` yields id 2. -/
theorem openBatch_id_allocation :
    (∀ s c s', openBatch s c = .ok s' →
      s'.currentBatchId = s.currentBatchId + 1 ∧
      s'.isBatchOpen s'.currentBatchId = true) ∧
    (∀ s s', Step s s' → s.currentBatchId ≤ s'.currentBatchId) ∧
    (∀ s t, Reachable s t → ∀ c t', openBatch t c = .ok t' →
      s.currentBatchId < t'.currentBatchId) ∧
    (∀ d, (initialState d).currentBatchId = 1) ∧
    (∀ d s', openBatch (initialState d) d = .ok s' → s'.currentBatchId = 2) := by
  have hopen : ∀ s c s', openBatch s c = .ok s' →
      s'.currentBatchId = s.currentBatchId + 1 ∧
      s'.isBatchOpen s'.currentBatchId = true := by
    intro s c s' h
    obtain ⟨-, -, h2⟩ := openBatch_ok h
    subst h2
    refine ⟨rfl, ?_⟩
    show Function.update s.isBatchOpen (s.currentBatchId + 1) true
      (s.currentBatchId + 1) = true
    rw [Function.update_same]
  have hmono : ∀ s t, Reachable s t → s.currentBatchId ≤ t.currentBatchId := by
    intro s t h
    induction h with
    | refl => exact le_refl _
    | tail h1 hstep ih => exact ih.trans (step_counter_mono hstep)
  refine ⟨hopen, fun s s' h => step_counter_mono h, ?_, fun d => rfl, ?_⟩
  · intro s t hr c t' h
    have h1 := (hopen t c t' h).1
    have h2 := hmono s t hr
    omega
  · intro d s' h
    have h1 := (hopen _ _ _ h).1
    rw [h1]
    rfl

theorem openBatch_id_allocation_witness : demoState.currentBatchId = 2 :=
  openBatch_id_allocation.2.2.2.2 0 demoState openBatch_demo

/-- C3: once `closeBatch(b)` succeeds (from a state whose open batch ids are
bounded by the counter, the invariant of every reachable state), the batch
stays closed in every reachable continuation, every later
`submitContribution(b, ·)` and `reportUsage(b, ·)` reverts for every
caller and time, and both of `b`'s accumulators stay exactly as they were
at close time. -/
theorem close_is_one_way_gate
    (s s₁ s₂ : ContractState) (c b : Nat)
    (hinv : BatchIdsBounded s)
    (hclose : closeBatch s c b = .ok s₁)
    (hreach : Reachable s₁ s₂) :
    s₂.isBatchOpen b = false ∧
    (∀ caller now v, execOk (submitContribution s₂ caller now b v) = false) ∧
    (∀ caller now v, execOk (reportUsage s₂ caller now b v) = false) ∧
    s₂.totalContributionsEncrypted b = s₁.totalContributionsEncrypted b ∧
    s₂.totalUsageEncrypted b = s₁.totalUsageEncrypted b := by
  obtain ⟨-, -, hop, h2⟩ := closeBatch_ok hclose
  have hb1 : b ≤ s₁.currentBatchId := by
    subst h2; exact hinv b hop
  have hcl1 : s₁.isBatchOpen b = false := by
    subst h2
    show Function.update s.isBatchOpen b false b = false
    rw [Function.update_same]
  obtain ⟨k1, k2, k3, k4⟩ := reachable_preserves_closed b hreach hb1 hcl1
  exact ⟨k2, fun caller now v => submit_fails_on_closed k2,
    fun caller now v => report_fails_on_closed k2, k3, k4⟩

theorem close_is_one_way_gate_witness :
    execOk (submitContribution closedState 7 1000 2 ⟨9, 1⟩) = false :=
  (close_is_one_way_gate demoState closedState closedState 0 2 demoState_bounded
    closeBatch_demo Relation.ReflTransGen.refl).2.1 7 1000 ⟨9, 1⟩

/-- C4 (amended): the callback body never reads `msg.sender` — there is no
oracle-only authorization check at all, so the result is identical for
every caller; acceptance is gated only by the replay flag, the state hash
and the signature check on the proof. -/
theorem myCallback_ignores_caller
    (sig : Nat → Nat × Nat → Nat → Bool) (s : ContractState)
    (c₁ c₂ rid : Nat) (ct : Nat × Nat) (pf : Nat) :
    myCallback sig s c₁ rid ct pf = myCallback sig s c₂ rid ct pf := rfl

/-- C4 counterexample: callers 9 and 10 are distinct, so at most one of them
can be the decryption oracle, yet both invoke the callback successfully
with a valid proof on a pending request — some non-oracle caller does not
fail the claimed oracle-only authorization check. -/
theorem myCallback_accepts_any_caller :
    execOk (myCallback sigTrue readyState 9 1 (100, 0) 0) = true ∧
    execOk (myCallback sigTrue readyState 10 1 (100, 0) 0) = true ∧
    (9 : Nat) ≠ 10 := by
  refine ⟨by decide, by decide, by decide⟩

/-- C1: when the registered, unprocessed decryption context for `rid` stores
the hash of batch `b`'s current accumulator handles (exactly what
`requestBatchSummaryDecryption` records) and the batch's stored handles are
older than the FHE allocator counter (true of every stored handle), then
after any successful merge into `b` — a contribution or a usage report —
the callback for `rid` fails with `StateMismatch` for every caller and
every payload, even one whose proof the verifier would accept: the revert
happens before `checkSignatures` runs and nothing is marked processed.  The
comparison is between the hash recomputed from the current handles and the
hash stored at request time. -/
theorem merge_then_callback_state_mismatch
    (s₁ s₂ : ContractState) (rid b caller now : Nat) (v : EncVal)
    (hctx : s₁.decryptionContexts rid = ⟨b, currentStateHash s₁ b, false⟩)
    (hfc : (s₁.totalContributionsEncrypted b).handle < s₁.nextHandle)
    (hfu : (s₁.totalUsageEncrypted b).handle < s₁.nextHandle)
    (hmerge : submitContribution s₁ caller now b v = .ok s₂ ∨
      reportUsage s₁ caller now b v = .ok s₂) :
    ∀ sig c₂ ct pf, myCallback sig s₂ c₂ rid ct pf = .error .StateMismatch := by
  intro sig c₂ ct pf
  rcases hmerge with h | h
  · obtain ⟨-, -, -, hnd, pv, hle, h2⟩ := submitContribution_ok h
    have hdc : s₂.decryptionContexts = s₁.decryptionContexts := by rw [h2]
    have hcontrib : s₂.totalContributionsEncrypted b = ⟨hnd, pv⟩ := by
      rw [h2]
      show Function.update s₁.totalContributionsEncrypted b ⟨hnd, pv⟩ b = _
      rw [Function.update_same]
    have husage : s₂.totalUsageEncrypted b = s₁.totalUsageEncrypted b := by
      rw [h2]
    have hne : hnd ≠ (s₁.totalContributionsEncrypted b).handle := by omega
    simp [myCallback, hdc, hctx, hcontrib, husage, currentStateHash,
      hashCiphertexts, hne]
  · obtain ⟨-, -, -, -, hnd, pv, hle, h2⟩ := reportUsage_ok h
    have hdc : s₂.decryptionContexts = s₁.decryptionContexts := by rw [h2]
    have husage : s₂.totalUsageEncrypted b = ⟨hnd, pv⟩ := by
      rw [h2]
      show Function.update s₁.totalUsageEncrypted b ⟨hnd, pv⟩ b = _
      rw [Function.update_same]
    have hcontrib : s₂.totalContributionsEncrypted b =
        s₁.totalContributionsEncrypted b := by
      rw [h2]
    have hne : hnd ≠ (s₁.totalUsageEncrypted b).handle := by omega
    simp [myCallback, hdc, hctx, hcontrib, husage, currentStateHash,
      hashCiphertexts, hne]

theorem merge_then_callback_state_mismatch_witness :
    myCallback sigTrue c1Merged 9 1 (100, 0) 0 = .error .StateMismatch :=
  merge_then_callback_state_mismatch c1State c1Merged 1 2 7 100 ⟨9, 1⟩ rfl
    (by decide) (by decide) (Or.inl rfl) sigTrue 9 (100, 0) 0

/-- C2 (amended): the callback fails with `ReplayDetected` exactly when the
stored context's `processed` flag is already true; since Solidity returns
the zero struct for an absent mapping entry, a requestId with no
registered context has `processed = false` and is NOT rejected by the
replay branch (it fails later, with `StateMismatch`, because the zero
state hash never equals a recomputed keccak hash — see the
counterexample); a successful callback sets `processed`, so any second
call with the same requestId — any payload, any caller, any verifier —
fails with `ReplayDetected`, and the callback succeeds at most once per
requestId. -/
theorem callback_replay_protection :
    (∀ sig s c rid ct pf, (s.decryptionContexts rid).processed = true →
      myCallback sig s c rid ct pf = .error .ReplayDetected) ∧
    (∀ sig s s' c rid ct pf, myCallback sig s c rid ct pf = .ok s' →
      ∀ sig₂ c₂ ct₂ pf₂,
        myCallback sig₂ s' c₂ rid ct₂ pf₂ = .error .ReplayDetected) := by
  have hrep : ∀ sig s c rid ct pf,
      (s.decryptionContexts rid).processed = true →
      myCallback sig s c rid ct pf = .error .ReplayDetected := by
    intro sig s c rid ct pf hp
    simp [myCallback, hp]
  refine ⟨hrep, ?_⟩
  intro sig s s' c rid ct pf h sig₂ c₂ ct₂ pf₂
  obtain ⟨-, -, -, h2⟩ := myCallback_ok h
  apply hrep
  rw [h2]
  show (Function.update s.decryptionContexts rid
    ⟨(s.decryptionContexts rid).batchId, (s.decryptionContexts rid).stateHash,
      true⟩ rid).processed = true
  rw [Function.update_same]

theorem callback_replay_protection_witness :
    myCallback sigTrue processedState 9 1 (100, 0) 0 =
      .error .ReplayDetected :=
  callback_replay_protection.2 sigTrue readyState processedState 9 1 (100, 0) 0
    rfl sigTrue 9 (100, 0) 0

/-- C2 counterexample: on a fresh deployment request id 99 has no registered
context, and a callback for it fails with `StateMismatch`, not with
`ReplayDetected` as the claim requires: the absent context is the zero
struct, so `processed` is false and the replay branch is skipped. -/
theorem missing_context_not_replay :
    myCallback sigTrue (initialState 0) 3 99 (0, 0) 0 =
      .error .StateMismatch ∧
    Err.StateMismatch ≠ Err.ReplayDetected :=
  ⟨rfl, by decide⟩

/-- C5 (amended): when the contract is not paused and the caller's
decryption-request cooldown has elapsed, `requestBatchSummaryDecryption(b)`
on an open batch `b` fails with the `BatchNotOpen` error (the code reuses
this error kind for "batch must be closed"); but the cooldown check runs
first, so a caller whose cooldown has not elapsed receives
`CooldownActive` even on an open batch, contrary to the claim's
"regardless of cooldown state". -/
theorem request_on_open_batch_fails
    (s : ContractState) (c now b : Nat)
    (hp : s.paused = false)
    (hcd : s.lastDecryptionRequestTime c + s.cooldownSeconds ≤ now)
    (hb : s.isBatchOpen b = true) :
    requestBatchSummaryDecryption s c now b = .error .BatchNotOpen := by
  simp [requestBatchSummaryDecryption, hp, hb, Nat.not_lt.mpr hcd]

theorem request_on_open_batch_fails_witness :
    requestBatchSummaryDecryption demoState 4 100 2 = .error .BatchNotOpen :=
  request_on_open_batch_fails demoState 4 100 2 rfl (by decide) (by decide)

/-- C5 counterexample: batch 2 is open and caller 4 is within the decryption
cooldown; the request at time 110 fails with `CooldownActive`, not with
the batch-still-open error the claim promises for every cooldown state. -/
theorem open_batch_cooldown_precedence :
    cooldownBusyState.isBatchOpen 2 = true ∧
    requestBatchSummaryDecryption cooldownBusyState 4 110 2 =
      .error .CooldownActive ∧
    Err.CooldownActive ≠ Err.BatchNotOpen :=
  ⟨by decide, rfl, by decide⟩

/-- C6 (amended): while `paused` is true, `openBatch` and `closeBatch` for
owner callers, `reportUsage` for provider callers, and
`submitContribution` and `requestBatchSummaryDecryption` for every caller
all fail with `PausedError` — a revert, so nothing is written; the oracle
callback `myCallback`, however, has no `whenNotPaused` modifier and is not
pause-gated (see the counterexample), contrary to the claim's list. -/
theorem paused_blocks_mutations
    (s : ContractState) (hp : s.paused = true) (c now b : Nat) (v : EncVal) :
    (c = s.owner → openBatch s c = .error .PausedError) ∧
    (c = s.owner → closeBatch s c b = .error .PausedError) ∧
    submitContribution s c now b v = .error .PausedError ∧
    (s.isProvider c = true → reportUsage s c now b v = .error .PausedError) ∧
    requestBatchSummaryDecryption s c now b = .error .PausedError := by
  refine ⟨?_, ?_, ?_, ?_, ?_⟩
  · intro hc; simp [openBatch, hc, hp]
  · intro hc; simp [closeBatch, hc, hp]
  · simp [submitContribution, hp]
  · intro hpr; simp [reportUsage, hpr, hp]
  · simp [requestBatchSummaryDecryption, hp]

theorem paused_blocks_mutations_witness :
    submitContribution pausedReadyState 0 1000 2 ⟨9, 1⟩ =
      .error .PausedError :=
  (paused_blocks_mutations pausedReadyState rfl 0 1000 2 ⟨9, 1⟩).2.2.1

/-- C6 counterexample: the contract is paused, yet the oracle callback for
pending request 1 succeeds — `myCallback` performs no pause check, so it
is a mutating operation that does not fail with the `Paused` error while
paused. -/
theorem paused_callback_still_runs :
    pausedReadyState.paused = true ∧
    execOk (myCallback sigTrue pausedReadyState 9 1 (100, 0) 0) = true :=
  ⟨rfl, by decide⟩

/-- C7 (amended): `submitContribution(b, ·)` succeeds iff the contract is
not paused, the caller's submission cooldown has elapsed
(`now ≥ lastSubmissionTime + cooldownSeconds`) and `b` is open; each
failure reverts with the corresponding error, checked in the order pause,
cooldown, batch-open, and a revert performs no write at all (the error
result carries no post-state, which models the EVM rollback).  The
claim's original iff omitted the not-paused condition. -/
theorem submitContribution_success_iff
    (s : ContractState) (c now b : Nat) (v : EncVal) :
    (execOk (submitContribution s c now b v) = true ↔
      s.paused = false ∧ s.lastSubmissionTime c + s.cooldownSeconds ≤ now ∧
      s.isBatchOpen b = true) ∧
    (s.paused = true → submitContribution s c now b v = .error .PausedError) ∧
    (s.paused = false → now < s.lastSubmissionTime c + s.cooldownSeconds →
      submitContribution s c now b v = .error .CooldownActive) ∧
    (s.paused = false → s.lastSubmissionTime c + s.cooldownSeconds ≤ now →
      s.isBatchOpen b = false →
      submitContribution s c now b v = .error .BatchNotOpen) := by
  refine ⟨⟨?_, ?_⟩, ?_, ?_, ?_⟩
  · intro h
    obtain ⟨s', hs'⟩ := execOk_iff.mp h
    obtain ⟨h1, h2, h3, -⟩ := submitContribution_ok hs'
    exact ⟨h1, h2, h3⟩
  · rintro ⟨h1, h2, h3⟩
    simp [submitContribution, h1, h3, Nat.not_lt.mpr h2, execOk]
  · intro h1
    simp [submitContribution, h1]
  · intro h1 h2
    simp [submitContribution, h1, h2]
  · intro h1 h2 h3
    simp [submitContribution, h1, h3, Nat.not_lt.mpr h2]

theorem submitContribution_success_iff_witness :
    execOk (submitContribution demoState 7 100 2 ⟨9, 1⟩) = true :=
  (submitContribution_success_iff demoState 7 100 2 ⟨9, 1⟩).1.mpr
    ⟨rfl, by decide, by decide⟩

/-- C7 counterexample: batch 2 is open and caller 7's submission cooldown
has elapsed at time 100, yet the submission fails — with `PausedError`,
an error outside the claim's two-error list — because the contract is
paused, refuting the claimed two-condition iff. -/
theorem paused_breaks_submit_iff :
    pausedOpenState.isBatchOpen 2 = true ∧
    pausedOpenState.lastSubmissionTime 7 + pausedOpenState.cooldownSeconds ≤
      100 ∧
    submitContribution pausedOpenState 7 100 2 ⟨9, 1⟩ =
      .error .PausedError ∧
    Err.PausedError ≠ Err.CooldownActive ∧
    Err.PausedError ≠ Err.BatchNotOpen :=
  ⟨by decide, by decide, rfl, by decide, by decide⟩

/-- C9 (amended): with `cooldownSeconds = 60` and the fresh principal 7
(`lastSubmissionTime = 0`) against the open batch 2: the submission at
`t = 0` fails with `CooldownActive` — not "succeeds" as the claim's first
step says, because the guard demands `now ≥ 0 + 60` even for a principal
who has never submitted; the submission at `t = 30` fails with
`CooldownActive`; the submission at `t = 61` succeeds (the earlier
reverts recorded nothing, so `lastSubmissionTime` is still 0 and
`61 ≥ 60`). -/
theorem cooldown_scenario :
    demoState.cooldownSeconds = 60 ∧
    demoState.lastSubmissionTime 7 = 0 ∧
    demoState.isBatchOpen 2 = true ∧
    submitContribution demoState 7 0 2 ⟨9, 1⟩ = .error .CooldownActive ∧
    submitContribution demoState 7 30 2 ⟨9, 1⟩ = .error .CooldownActive ∧
    execOk (submitContribution demoState 7 61 2 ⟨9, 1⟩) = true :=
  ⟨rfl, rfl, by decide, rfl, rfl, by decide⟩

/-- C9 counterexample: the claim's first step is false on the code — the
fresh principal's submission at `t = 0` does not succeed but reverts with
`CooldownActive`, since `0 < 0 + 60`. -/
theorem fresh_submit_at_zero_fails :
    execOk (submitContribution demoState 7 0 2 ⟨9, 1⟩) = false ∧
    submitContribution demoState 7 0 2 ⟨9, 1⟩ = .error .CooldownActive :=
  ⟨by decide, rfl⟩
